import Mathlib

set_option maxRecDepth 8192

/-!
Verification of the AI news analyzer (`app.py`): a shallow embedding of the
feedback store (CSV mirror), the credibility scorer, the summarizer, the
publish-time formatter and the feedback views, with theorems settling the
specification claims about them.

Python strings are embedded as `String`/`List Char`; machine integers as
`Int`/`Nat` (no overflow is reachable in the scored ranges); fallible
parsing as `Option`.
-/

/-- The whitespace characters recognised by Python's `str.split`, `str.strip`
and the regex class used in `app.py` (ASCII range). -/
def isWsChar (c : Char) : Bool :=
  c == ' ' || c == '\t' || c == '\n' || c == '\r' || c == '\x0b' || c == '\x0c'

/-- Python's `pat in hay` substring test, over character lists. -/
def containsSub : List Char → List Char → Bool
  | [], pat => pat.isEmpty
  | c :: t, pat => pat.isPrefixOf (c :: t) || containsSub t pat

/-- Python's `pat in hay` substring test on strings. -/
def strContains (hay pat : String) : Bool := containsSub hay.data pat.data

/-- Python's `str.lower()` (ASCII case folding, which covers every string the
code compares). -/
def pyLower (s : String) : String := String.mk (s.data.map Char.toLower)

/-- Joins fragments with a single separator character (used for `" ".join`
and the comma-joining of CSV rows). -/
def joinSep (sep : Char) : List (List Char) → List Char
  | [] => []
  | [f] => f
  | f :: fs => f ++ sep :: joinSep sep fs

/-- Helper for `pySplit`: accumulates the current word. Embeds Python's
`str.split()` with no separator argument (split on whitespace runs,
discarding empty fragments). -/
def splitWsAux (acc : List Char) : List Char → List (List Char)
  | [] => if acc.isEmpty then [] else [acc]
  | c :: cs =>
    if isWsChar c then
      if acc.isEmpty then splitWsAux [] cs else acc :: splitWsAux [] cs
    else splitWsAux (acc ++ [c]) cs

/-- Python's `str.split()` (whitespace split) over a character list. -/
def pySplit (cs : List Char) : List (List Char) := splitWsAux [] cs

/-- `len(text.split())` from `app.py`: the word count of a string. -/
def wordCount (text : String) : Nat := (pySplit text.data).length

/-- Python's `str.strip()` over a character list. -/
def pyStripL (cs : List Char) : List Char :=
  ((cs.dropWhile isWsChar).reverse.dropWhile isWsChar).reverse

/-- Python's `str.strip()` on strings. -/
def pyStrip (s : String) : String := String.mk (pyStripL s.data)

/-! ## Credibility scorer (`fake_news_check`, app.py lines 135-156) -/

/-- The fixed trusted-source list of `fake_news_check`. -/
def trustedSources : List String :=
  ["BBC", "NDTV", "The Hindu", "Times of India", "CNN",
   "Google News", "Reuters", "Al Jazeera", "Washington Post", "Indian Express"]

/-- The fixed credibility-signal words of `fake_news_check`. -/
def signalWords : List String := ["research", "study", "report", "official"]

/-- The alternatives of the sensational-keyword regex of `fake_news_check`. -/
def sensationalWords : List String :=
  ["shocking", "miracle", "unbelievable", "guaranteed", "scandal"]

/-- The raw (pre-clamp) credibility score of `fake_news_check`: base 50,
then the sequence of guarded additions/subtraction, mirroring the Python
statement order.  The `!= ""` guards embed Python's truthiness tests
(`if source and ...`, `if text and ...`). -/
def credScoreRaw (title text source : String) : Int :=
  let score : Int := 50
  let score :=
    if (source != "") && trustedSources.any (fun nm => strContains (pyLower source) (pyLower nm))
    then score + 30 else score
  let score := if (text != "") && decide (120 < wordCount text) then score + 15 else score
  let score :=
    if (text != "") && signalWords.any (fun w => strContains (pyLower text) w)
    then score + 10 else score
  let score := if (text != "") && text.data.any Char.isDigit then score + 5 else score
  let score :=
    if (text != "") && sensationalWords.any (fun w => strContains (pyLower text) w)
    then score - 25 else score
  score

/-- `score = max(0, min(100, score))` from `fake_news_check`. -/
def credScoreClamped (title text source : String) : Int :=
  max 0 (min 100 (credScoreRaw title text source))

/-- `fake_news_check(title, text, source)` from app.py: computes the clamped
score and formats the label string by thresholds 80 and 55. -/
def fake_news_check (title text source : String) : String :=
  let score := credScoreClamped title text source
  if 80 ≤ score then "🟢 Real News (" ++ toString score ++ "% confidence)"
  else if 55 ≤ score then "🟡 Uncertain (" ++ toString score ++ "% confidence)"
  else "🔴 Fake News Likely (" ++ toString score ++ "% confidence)"

/-- The credibility score as the specification words it: a single flat sum of
independent, unguarded contributions (base 50, +30 trusted source, +15 long
text, +10 signal word, +5 digit, -25 sensational keyword), clamped to
[0, 100].  Written from the spec sentence, to be compared with
`credScoreClamped`. -/
def credSpecScore (title text source : String) : Int :=
  let trustB : Int :=
    if trustedSources.any (fun nm => strContains (pyLower source) (pyLower nm)) then 30 else 0
  let lenB : Int := if 120 < wordCount text then 15 else 0
  let sigB : Int := if signalWords.any (fun w => strContains (pyLower text) w) then 10 else 0
  let digB : Int := if text.data.any Char.isDigit then 5 else 0
  let sensP : Int := if sensationalWords.any (fun w => strContains (pyLower text) w) then 25 else 0
  max 0 (min 100 (50 + trustB + lenB + sigB + digB - sensP))

/-- The label rendering as the specification words it, on top of
`credSpecScore`: ≥ 80 real, 55-79 uncertain, < 55 fake. -/
def credSpecLabel (title text source : String) : String :=
  let score := credSpecScore title text source
  if 80 ≤ score then "🟢 Real News (" ++ toString score ++ "% confidence)"
  else if 55 ≤ score then "🟡 Uncertain (" ++ toString score ++ "% confidence)"
  else "🔴 Fake News Likely (" ++ toString score ++ "% confidence)"

theorem trustedAny_empty :
    trustedSources.any (fun nm => strContains (pyLower "") (pyLower nm)) = false := by decide

theorem signalAny_empty :
    signalWords.any (fun w => strContains (pyLower "") w) = false := by decide

theorem sensationalAny_empty :
    sensationalWords.any (fun w => strContains (pyLower "") w) = false := by decide

/-- The Python truthiness guard on `source` is redundant: eliminating it
does not change the trusted-source condition. -/
theorem guard_trusted (s : String) :
    ((s != "") && trustedSources.any (fun nm => strContains (pyLower s) (pyLower nm))) =
      trustedSources.any (fun nm => strContains (pyLower s) (pyLower nm)) := by
  by_cases hs : s = ""
  · subst hs; simp [trustedAny_empty]
  · simp [bne_iff_ne, hs]

theorem guard_len (x : String) :
    ((x != "") && decide (120 < wordCount x)) = decide (120 < wordCount x) := by
  by_cases hx : x = ""
  · subst hx; simp [wordCount, pySplit, splitWsAux]
  · simp [bne_iff_ne, hx]

theorem guard_signal (x : String) :
    ((x != "") && signalWords.any (fun w => strContains (pyLower x) w)) =
      signalWords.any (fun w => strContains (pyLower x) w) := by
  by_cases hx : x = ""
  · subst hx; simp [signalAny_empty]
  · simp [bne_iff_ne, hx]

theorem guard_digit (x : String) :
    ((x != "") && x.data.any Char.isDigit) = x.data.any Char.isDigit := by
  by_cases hx : x = ""
  · subst hx; simp
  · simp [bne_iff_ne, hx]

theorem guard_sensational (x : String) :
    ((x != "") && sensationalWords.any (fun w => strContains (pyLower x) w)) =
      sensationalWords.any (fun w => strContains (pyLower x) w) := by
  by_cases hx : x = ""
  · subst hx; simp [sensationalAny_empty]
  · simp [bne_iff_ne, hx]

/-- Shared lemma: the raw sequentially-guarded score of the code equals the
flat (order-independent) sum of contributions. -/
theorem credRaw_eq_sum (t x s : String) :
    credScoreRaw t x s =
      50 + (if trustedSources.any (fun nm => strContains (pyLower s) (pyLower nm)) then (30 : Int) else 0)
        + (if 120 < wordCount x then (15 : Int) else 0)
        + (if signalWords.any (fun w => strContains (pyLower x) w) then (10 : Int) else 0)
        + (if x.data.any Char.isDigit then (5 : Int) else 0)
        - (if sensationalWords.any (fun w => strContains (pyLower x) w) then (25 : Int) else 0) := by
  simp only [credScoreRaw,
    guard_trusted, guard_len, guard_signal, guard_digit, guard_sensational,
    decide_eq_true_eq]
  split_ifs <;> omega

/-- Shared lemma: the sequentially-guarded score of the code equals the flat
additive score of the spec, on all inputs. -/
theorem credScore_eq_spec (t x s : String) :
    credScoreClamped t x s = credSpecScore t x s := by
  unfold credScoreClamped credSpecScore
  rw [credRaw_eq_sum]

/-- Shared lemma: the label of the code equals the label of the spec. -/
theorem credLabel_eq_spec (t x s : String) :
    fake_news_check t x s = credSpecLabel t x s := by
  unfold fake_news_check credSpecLabel
  rw [credScore_eq_spec]

/-- C2: for every title, text and source, the credibility score is base 50,
plus 30 for a trusted source (case-insensitive substring), plus 15 for word
count above 120, plus 10 for a credibility-signal word, plus 5 for a digit,
minus 25 for a sensational keyword, clamped to [0,100]; the label is the
real/uncertain/fake string exactly by the thresholds 80 and 55; and since
the score equals the flat order-independent sum `credSpecScore`, the order
of the checks does not affect the result. -/
theorem claim_C2_credibility_formula (t x s : String) :
    fake_news_check t x s = credSpecLabel t x s ∧
    credScoreClamped t x s = credSpecScore t x s :=
  ⟨credLabel_eq_spec t x s, credScore_eq_spec t x s⟩

/-- A 122-word text, each word containing a digit, ending in the sensational
keyword "shocking" and containing no credibility-signal word. -/
def c3text : String :=
  String.mk (joinSep ' ' (List.replicate 121 ['9']) ++ (" shocking").data)

/-- C3 counterexample: with source "Reuters", a text of more than 120 words
containing a digit, the score can still be 75 (< 80, label "Uncertain"):
the claim forgot the sensational-keyword subtraction. -/
theorem claim_C3_counterexample :
    strContains (pyLower "Reuters") "reuters" = true ∧
    120 < wordCount c3text ∧
    c3text.data.any Char.isDigit = true ∧
    credScoreClamped "t" c3text "Reuters" = 75 ∧
    fake_news_check "t" c3text "Reuters" = "🟡 Uncertain (75% confidence)" :=
  ⟨by decide, by decide, by decide, by decide, by decide⟩

/-- C3 amended: if the source case-insensitively contains "Reuters", the text
has more than 120 words and a digit, and the text matches no sensational
keyword, then the clamped score is at least 80 and the label is the
"Real News" string. -/
theorem claim_C3_amended (t x s : String)
    (hReu : strContains (pyLower s) "reuters" = true)
    (hLen : 120 < wordCount x)
    (hDig : x.data.any Char.isDigit = true)
    (hSens : sensationalWords.any (fun w => strContains (pyLower x) w) = false) :
    80 ≤ credScoreClamped t x s ∧
    fake_news_check t x s =
      "🟢 Real News (" ++ toString (credScoreClamped t x s) ++ "% confidence)" := by
  have hLowerReu : pyLower "Reuters" = "reuters" := by decide
  have hTrust : trustedSources.any (fun nm => strContains (pyLower s) (pyLower nm)) = true := by
    apply List.any_eq_true.mpr
    refine ⟨"Reuters", by decide, ?_⟩
    rw [hLowerReu]; exact hReu
  have hc : credScoreClamped t x s = 100 := by
    have hraw : credScoreRaw t x s =
        100 + (if signalWords.any (fun w => strContains (pyLower x) w) then (10 : Int) else 0) := by
      rw [credRaw_eq_sum, hTrust, hSens, if_pos rfl, if_pos hLen, if_pos hDig]
      simp only [Bool.false_eq_true, if_false]
      ring
    unfold credScoreClamped
    rw [hraw, max_def, min_def]
    split_ifs <;> omega
  constructor
  · rw [hc]; norm_num
  · unfold fake_news_check
    rw [hc, if_pos (by norm_num)]

/-- A 121-word digit text with no sensational keyword. -/
def c3okText : String := String.mk (joinSep ' ' (List.replicate 121 ['9']))

theorem claim_C3_amended_witness :
    (strContains (pyLower "Reuters") "reuters" = true ∧
      120 < wordCount c3okText ∧
      c3okText.data.any Char.isDigit = true ∧
      sensationalWords.any (fun w => strContains (pyLower c3okText) w) = false) ∧
    80 ≤ credScoreClamped "t" c3okText "Reuters" ∧
    fake_news_check "t" c3okText "Reuters" =
      "🟢 Real News (" ++ toString (credScoreClamped "t" c3okText "Reuters") ++ "% confidence)" :=
  ⟨⟨by decide, by decide, by decide, by decide⟩,
    claim_C3_amended "t" c3okText "Reuters" (by decide) (by decide) (by decide) (by decide)⟩

/-- C9: the pre-clamp score is always at least 25 (the only subtraction is a
single -25 from base 50), so the clamp-to-0 branch is unreachable, the
clamped score is `min 100 raw`, always in [25,100], and the "Fake News"
label can only occur with a score in 25..54. -/
theorem claim_C9_score_bounds (t x s : String) :
    25 ≤ credScoreRaw t x s ∧
    credScoreClamped t x s = min 100 (credScoreRaw t x s) ∧
    25 ≤ credScoreClamped t x s ∧ credScoreClamped t x s ≤ 100 ∧
    (credScoreClamped t x s < 55 →
      fake_news_check t x s =
        "🔴 Fake News Likely (" ++ toString (credScoreClamped t x s) ++ "% confidence)" ∧
      25 ≤ credScoreClamped t x s ∧ credScoreClamped t x s ≤ 54) := by
  have hraw : 25 ≤ credScoreRaw t x s := by
    rw [credRaw_eq_sum]; split_ifs <;> omega
  have hcl : credScoreClamped t x s = min 100 (credScoreRaw t x s) := by
    unfold credScoreClamped
    rw [max_def, min_def]
    split_ifs <;> omega
  have hlo : 25 ≤ credScoreClamped t x s := by
    rw [hcl, min_def]; split_ifs <;> omega
  have hhi : credScoreClamped t x s ≤ 100 := by
    rw [hcl, min_def]; split_ifs <;> omega
  refine ⟨hraw, hcl, hlo, hhi, fun hlt => ⟨?_, hlo, by omega⟩⟩
  unfold fake_news_check
  rw [if_neg (by omega), if_neg (by omega)]

theorem claim_C9_witness :
    credScoreClamped "" "shocking" "" < 55 ∧
    (fake_news_check "" "shocking" "" =
        "🔴 Fake News Likely (" ++ toString (credScoreClamped "" "shocking" "") ++ "% confidence)" ∧
      25 ≤ credScoreClamped "" "shocking" "" ∧ credScoreClamped "" "shocking" "" ≤ 54) :=
  ⟨by decide, (claim_C9_score_bounds "" "shocking" "").2.2.2.2 (by decide)⟩

/-! ## Summarizer (`summarize_text_five_lines`, app.py lines 103-122) -/

/-- Helper for `collapseWs`: the flag records whether the previous character
was whitespace (so the run is already represented by one space). Embeds
`re.sub(r"\s+", " ", text)`. -/
def collapseWsAux : Bool → List Char → List Char
  | _, [] => []
  | prevWs, c :: cs =>
    if isWsChar c then
      if prevWs then collapseWsAux true cs else ' ' :: collapseWsAux true cs
    else c :: collapseWsAux false cs

/-- `re.sub(r"\s+", " ", text)`: collapse every whitespace run to one space. -/
def collapseWs (cs : List Char) : List Char := collapseWsAux false cs

/-- Embeds `re.split(r'(?<=[.!?])\s+', text)` on whitespace-collapsed text:
a space splits exactly when the character before it (the last character of
the fragment accumulated so far) is '.', '!' or '?'. -/
def splitSentAux (acc : List Char) : List Char → List (List Char)
  | [] => [acc]
  | c :: cs =>
    if c == ' ' && (acc.getLast? == some '.' || acc.getLast? == some '!' || acc.getLast? == some '?')
    then acc :: splitSentAux [] cs
    else splitSentAux (acc ++ [c]) cs

/-- The sentence list computed inside `summarize_text_five_lines`: normalize
whitespace, strip, split into sentences, strip each and drop empties. -/
def sentencesOf (text : String) : List (List Char) :=
  ((splitSentAux [] (pyStripL (collapseWs text.data))).map pyStripL).filter
    (fun s => !s.isEmpty)

/-- `summarize_text_five_lines(text)` from app.py: empty input gives the fixed
sentence; otherwise join up to 5 sentences, falling back to the first 80
words when no sentence survives, and trimming to 120 words with an " ..."
marker when the joined summary is too long. -/
def summarize_text_five_lines (text : String) : String :=
  if text = "" then "No content available."
  else
    let t := pyStripL (collapseWs text.data)
    let sents := sentencesOf text
    if sents.length = 0 then
      let words := pySplit t
      String.mk (joinSep ' ' (words.take 80) ++ (if 80 < words.length then (" ...").data else []))
    else
      let summary := joinSep ' ' (sents.take 5)
      let words := pySplit summary
      if 120 < words.length then String.mk (joinSep ' ' (words.take 120) ++ (" ...").data)
      else String.mk summary

/-- C8: for every text whose whitespace-collapsed form splits into at least 6
non-empty sentences, the summarizer returns the first 5 sentences joined by
single spaces, word-trimmed to 120 words with an " ..." marker when that
joined result is longer. -/
theorem claim_C8_summarizer (text : String) (h6 : 6 ≤ (sentencesOf text).length) :
    summarize_text_five_lines text =
      (let summary := joinSep ' ' ((sentencesOf text).take 5)
       let words := pySplit summary
       if 120 < words.length then String.mk (joinSep ' ' (words.take 120) ++ (" ...").data)
       else String.mk summary) := by
  have hx : text ≠ "" := by
    intro h
    subst h
    revert h6
    decide
  unfold summarize_text_five_lines
  rw [if_neg hx]
  dsimp only
  rw [if_neg (by omega : ¬ ((sentencesOf text).length = 0))]

theorem claim_C8_witness :
    6 ≤ (sentencesOf "One. Two. Three. Four. Five. Six. Seven.").length ∧
    summarize_text_five_lines "One. Two. Three. Four. Five. Six. Seven." =
      "One. Two. Three. Four. Five." :=
  ⟨by decide, (claim_C8_summarizer "One. Two. Three. Four. Five. Six. Seven." (by decide)).trans (by decide)⟩

/-- C10 counterexample: the fixed "no content" sentence is also returned for
the non-empty input that is itself that sentence, so it is not returned
"exactly when" the input is empty. -/
theorem claim_C10_counterexample :
    summarize_text_five_lines "No content available." = "No content available." ∧
    ("No content available." : String) ≠ "" :=
  ⟨by decide, by decide⟩

theorem collapseWsAux_true_all_ws (cs : List Char) (h : ∀ c ∈ cs, isWsChar c = true) :
    collapseWsAux true cs = [] := by
  induction cs with
  | nil => rfl
  | cons c cs ih =>
    have hc := h c (by simp)
    simp only [collapseWsAux, hc, if_true]
    exact ih (fun d hd => h d (by simp [hd]))

theorem collapseWs_all_ws (cs : List Char) (h : ∀ c ∈ cs, isWsChar c = true) :
    collapseWs cs = [] ∨ collapseWs cs = [' '] := by
  cases cs with
  | nil => exact Or.inl rfl
  | cons c cs =>
    right
    have hc := h c (by simp)
    simp only [collapseWs, collapseWsAux, hc, if_true, Bool.false_eq_true, if_false]
    rw [collapseWsAux_true_all_ws cs (fun d hd => h d (by simp [hd]))]

/-- C10 amended: a non-empty all-whitespace input yields the empty string
(the word fallback over zero words, with no ellipsis marker and distinct
from the fixed sentence), and the empty input yields the fixed
"No content available." sentence (one direction only: that sentence can
also be returned for the non-empty input equal to it). -/
theorem claim_C10_amended (s : String) (h1 : s ≠ "")
    (h2 : ∀ c ∈ s.data, isWsChar c = true) :
    summarize_text_five_lines s = "" ∧
    summarize_text_five_lines "" = "No content available." := by
  refine ⟨?_, rfl⟩
  have ht : pyStripL (collapseWs s.data) = [] := by
    rcases collapseWs_all_ws s.data h2 with h | h <;> rw [h] <;> decide
  have hsents : sentencesOf s = [] := by
    unfold sentencesOf
    rw [ht]
    decide
  unfold summarize_text_five_lines
  rw [if_neg h1]
  dsimp only
  rw [hsents, ht]
  decide

theorem claim_C10_amended_witness :
    ((" " : String) ≠ "" ∧ ∀ c ∈ (" " : String).data, isWsChar c = true) ∧
    (summarize_text_five_lines " " = "" ∧
      summarize_text_five_lines "" = "No content available.") :=
  ⟨⟨by decide, by decide⟩, claim_C10_amended " " (by decide) (by decide)⟩

/-! ## Feedback store: CSV mirror (app.py lines 28-43 and 316-333)

The durable file is written by `DataFrame.to_csv` and read by `pd.read_csv`,
i.e. standard comma-separated text with a header row and minimal quoting
(a field is quoted iff it contains a comma, a quote, or a line break;
quotes are doubled inside quoted fields).  `scanCsv` parses it back. -/

/-- Minimal-quoting test of the CSV writer. -/
def needsQuote (f : List Char) : Bool :=
  f.any (fun c => c == ',' || c == '\x22' || c == '\n' || c == '\r')

/-- Doubling of quote characters inside a quoted CSV field. -/
def escQ : List Char → List Char
  | [] => []
  | c :: cs => if c == '\x22' then '\x22' :: '\x22' :: escQ cs else c :: escQ cs

/-- One CSV field as `to_csv` writes it (minimal quoting). -/
def encField (f : List Char) : List Char :=
  if needsQuote f then '\x22' :: (escQ f ++ ['\x22']) else f

/-- One CSV row: fields joined by commas. -/
def encRow (fs : List (List Char)) : List Char := joinSep ',' (fs.map encField)

/-- The file contents: each row terminated by a newline. -/
def renderRows : List (List (List Char)) → List Char
  | [] => []
  | r :: rs => encRow r ++ '\n' :: renderRows rs

/-- CSV scanner: mode `false` is outside quotes (a comma ends the field, a
newline ends the row, a quote enters quoted mode), mode `true` is inside
quotes (a doubled quote is a literal quote, a single quote closes).
`fld` is the field and `row` the row accumulated so far. -/
def scanCsv : Bool → List Char → List Char → List (List Char) → List (List (List Char))
  | false, [], fld, row => if fld.isEmpty && row.isEmpty then [] else [row ++ [fld]]
  | false, c :: cs, fld, row =>
    if c == ',' then scanCsv false cs [] (row ++ [fld])
    else if c == '\n' then (row ++ [fld]) :: scanCsv false cs [] []
    else if c == '\x22' then scanCsv true cs fld row
    else scanCsv false cs (fld ++ [c]) row
  | true, [], fld, row => [row ++ [fld]]
  | true, c :: cs, fld, row =>
    if c == '\x22' then
      match cs with
      | [] => if fld.isEmpty && row.isEmpty then [] else [row ++ [fld]]
      | c2 :: cs2 =>
        if c2 == '\x22' then scanCsv true cs2 (fld ++ ['\x22']) row
        else scanCsv false (c2 :: cs2) fld row
    else scanCsv true cs (fld ++ [c]) row
termination_by _ cs _ _ => cs.length

theorem scanN_nil (fld row) :
    scanCsv false [] fld row = if fld.isEmpty && row.isEmpty then [] else [row ++ [fld]] := by
  rw [scanCsv.eq_def]

theorem scanN_comma (cs fld row) :
    scanCsv false (',' :: cs) fld row = scanCsv false cs [] (row ++ [fld]) := by
  rw [scanCsv.eq_def]; simp

theorem scanN_newline (cs fld row) :
    scanCsv false ('\n' :: cs) fld row = (row ++ [fld]) :: scanCsv false cs [] [] := by
  rw [scanCsv.eq_def]; simp

theorem scanN_quote (cs fld row) :
    scanCsv false ('\x22' :: cs) fld row = scanCsv true cs fld row := by
  rw [scanCsv.eq_def]; simp

theorem scanN_other {c : Char} (h1 : c ≠ ',') (h2 : c ≠ '\n') (h3 : c ≠ '\x22')
    (cs fld row) :
    scanCsv false (c :: cs) fld row = scanCsv false cs (fld ++ [c]) row := by
  rw [scanCsv.eq_def]; simp [h1, h2, h3]

theorem scanQ_qq (cs fld row) :
    scanCsv true ('\x22' :: '\x22' :: cs) fld row = scanCsv true cs (fld ++ ['\x22']) row := by
  rw [scanCsv.eq_def]; simp

theorem scanQ_close {c : Char} (h : c ≠ '\x22') (cs fld row) :
    scanCsv true ('\x22' :: c :: cs) fld row = scanCsv false (c :: cs) fld row := by
  rw [scanCsv.eq_def]; simp [h]

theorem scanQ_close_nil (fld row) :
    scanCsv true ['\x22'] fld row = if fld.isEmpty && row.isEmpty then [] else [row ++ [fld]] := by
  rw [scanCsv.eq_def]; simp

theorem scanQ_other {c : Char} (h : c ≠ '\x22') (cs fld row) :
    scanCsv true (c :: cs) fld row = scanCsv true cs (fld ++ [c]) row := by
  rw [scanCsv.eq_def]; simp [h]

/-- The next character is not a quote (true of the separators that follow an
encoded field). -/
def headNotQuote : List Char → Bool
  | [] => true
  | c :: _ => c != '\x22'

/-- Scanning an escaped field body followed by the closing quote returns to
unquoted mode with the field appended. -/
theorem scanQ_escQ (f : List Char) :
    ∀ rest fld row, headNotQuote rest = true →
      scanCsv true (escQ f ++ '\x22' :: rest) fld row = scanCsv false rest (fld ++ f) row := by
  induction f with
  | nil =>
    intro rest fld row h
    cases rest with
    | nil => simp [escQ, scanQ_close_nil, scanN_nil]
    | cons c cs =>
      have hc : c ≠ '\x22' := by simpa [headNotQuote, bne_iff_ne] using h
      simp [escQ, scanQ_close hc]
  | cons a f ih =>
    intro rest fld row h
    by_cases ha : a = '\x22'
    · subst ha
      have : escQ ('\x22' :: f) ++ '\x22' :: rest = '\x22' :: '\x22' :: (escQ f ++ '\x22' :: rest) := by
        simp [escQ]
      rw [this, scanQ_qq, ih _ _ _ h]
      simp
    · have : escQ (a :: f) ++ '\x22' :: rest = a :: (escQ f ++ '\x22' :: rest) := by
        simp [escQ, ha]
      rw [this, scanQ_other ha, ih _ _ _ h]
      simp

/-- Scanning a field that needs no quoting just accumulates its characters. -/
theorem scanN_plain (f : List Char) :
    ∀ rest fld row, (∀ c ∈ f, c ≠ ',' ∧ c ≠ '\n' ∧ c ≠ '\x22') →
      scanCsv false (f ++ rest) fld row = scanCsv false rest (fld ++ f) row := by
  induction f with
  | nil => intro rest fld row _; simp
  | cons c f ih =>
    intro rest fld row h
    obtain ⟨h1, h2, h3⟩ := h c (by simp)
    rw [List.cons_append, scanN_other h1 h2 h3, ih _ _ _ (fun d hd => h d (by simp [hd]))]
    simp

/-- Scanning an encoded field consumes exactly that field. -/
theorem scanN_encField (f rest : List Char) (row : List (List Char))
    (hr : headNotQuote rest = true) :
    scanCsv false (encField f ++ rest) [] row = scanCsv false rest f row := by
  unfold encField
  by_cases hq : needsQuote f = true
  · rw [if_pos hq]
    have : ('\x22' :: (escQ f ++ ['\x22'])) ++ rest = '\x22' :: (escQ f ++ '\x22' :: rest) := by
      simp
    rw [this, scanN_quote, scanQ_escQ f rest [] row hr]
    simp
  · rw [if_neg hq]
    apply scanN_plain
    intro c hc
    rw [Bool.not_eq_true, needsQuote, List.any_eq_false] at hq
    have hp := hq c hc
    simp only [Bool.not_eq_true, Bool.or_eq_false_iff, beq_eq_false_iff_ne] at hp
    exact ⟨hp.1.1.1, hp.1.2, hp.1.1.2⟩

/-- Scanning an encoded row up to its newline yields exactly that row. -/
theorem scanN_encRow (fs : List (List Char)) (hne : fs ≠ []) :
    ∀ rest row, scanCsv false (encRow fs ++ '\n' :: rest) [] row =
      (row ++ fs) :: scanCsv false rest [] [] := by
  induction fs with
  | nil => exact absurd rfl hne
  | cons f fs ih =>
    intro rest row
    cases fs with
    | nil =>
      have h1 : encRow [f] = encField f := by simp [encRow, joinSep]
      rw [h1, scanN_encField f ('\n' :: rest) row (by rfl), scanN_newline]
    | cons f2 fs2 =>
      have h1 : encRow (f :: f2 :: fs2) = encField f ++ ',' :: encRow (f2 :: fs2) := by
        simp [encRow, joinSep]
      have h2 : (encField f ++ ',' :: encRow (f2 :: fs2)) ++ '\n' :: rest =
          encField f ++ ',' :: (encRow (f2 :: fs2) ++ '\n' :: rest) := by
        simp
      rw [h1, h2, scanN_encField f _ row (by rfl), scanN_comma,
        ih (by simp) rest (row ++ [f])]
      simp

/-- Scanning a rendered file recovers every row (rows being nonempty field
lists, as every CSV line with a header is). -/
theorem scanCsv_renderRows (rows : List (List (List Char))) (h : ∀ r ∈ rows, r ≠ []) :
    scanCsv false (renderRows rows) [] [] = rows := by
  induction rows with
  | nil => rw [renderRows, scanN_nil]; rfl
  | cons r rs ih =>
    rw [renderRows, scanN_encRow r (h r (by simp)) (renderRows rs) [],
      ih (fun q hq => h q (by simp [hq]))]
    simp

/-! ## The feedback store -/

/-- One feedback record: the six fields of the fixed schema, all stored as
text (the CSV file is plain text; `Article` holds the decimal article
index). -/
structure FeedbackRecord where
  article : String
  title : String
  feedback : String
  time : String
  source : String
  url : String
deriving DecidableEq

/-- `expected_cols` from app.py line 30: the fixed column schema. -/
def expected_cols : List String := ["Article", "Title", "Feedback", "Time", "Source", "URL"]

/-- The CSV row of a record, fields in schema order. -/
def rowOfRecord (r : FeedbackRecord) : List (List Char) :=
  [r.article.data, r.title.data, r.feedback.data, r.time.data, r.source.data, r.url.data]

/-- A cell of a DataFrame as `pd.read_csv` produces it: a verbatim string,
an inferred integer (`int64`), or `NaN`.  Modelled from the library
contract: with default options `read_csv` converts NA sentinels (the empty
cell among them) to NaN and type-infers a column whose every value parses
as an integer.  Float/boolean column inference and the float promotion of
mixed integer/NA columns are not modelled: no theorem below depends on a
column that could trigger them. -/
inductive PdCell where
  | s (v : String)
  | i (v : Int)
  | nan
deriving DecidableEq

/-- The default `na_values` sentinel strings of `pd.read_csv` (any such
cell, the empty cell included, reloads as NaN). -/
def pdNaSentinels : List String :=
  ["", "#N/A", "#N/A N/A", "#NA", "-1.#IND", "-1.#QNAN", "-NaN", "-nan",
   "1.#IND", "1.#QNAN", "<NA>", "N/A", "NA", "NULL", "NaN", "None",
   "n/a", "nan", "null"]

/-- Decimal value of a digit string. -/
def decToNat (ds : List Char) : Nat := ds.foldl (fun acc c => 10 * acc + (c.toNat - 48)) 0

/-- Does `read_csv` parse this cell as an integer (optional sign, digits)? -/
def isIntLike (v : String) : Bool :=
  match v.data with
  | '-' :: ds => !ds.isEmpty && ds.all Char.isDigit
  | '+' :: ds => !ds.isEmpty && ds.all Char.isDigit
  | ds => !ds.isEmpty && ds.all Char.isDigit

/-- The integer an int-like cell parses to. -/
def parsePdInt (v : String) : Int :=
  match v.data with
  | '-' :: ds => - Int.ofNat (decToNat ds)
  | '+' :: ds => Int.ofNat (decToNat ds)
  | ds => Int.ofNat (decToNat ds)

/-- Splits at the first character satisfying `p`: the part before it and,
when found, the part after it. -/
def splitAtChar (p : Char → Bool) : List Char → (List Char × Option (List Char))
  | [] => ([], none)
  | c :: t =>
    if p c then ([], some t)
    else
      let r := splitAtChar p t
      (c :: r.1, r.2)

/-- Leading sign stripped. -/
def stripSign : List Char → List Char
  | '+' :: t => t
  | '-' :: t => t
  | t => t

def digitsOnly (cs : List Char) : Bool := !cs.isEmpty && cs.all Char.isDigit

/-- `digits`, `digits.`, `digits.digits` or `.digits`. -/
def mantissaLike (cs : List Char) : Bool :=
  let r := splitAtChar (fun c => c == '.') cs
  match r.2 with
  | none => digitsOnly r.1
  | some frac => (digitsOnly r.1 && frac.all Char.isDigit) || (r.1.isEmpty && digitsOnly frac)

/-- Does `read_csv`'s numeric sniffing parse this cell as a float
(mantissa with optional exponent, or an infinity spelling)? -/
def isFloatLike (v : String) : Bool :=
  let cs := stripSign v.data
  if (cs.map Char.toLower) == ("inf").data || (cs.map Char.toLower) == ("infinity").data
  then true
  else
    let r := splitAtChar (fun c => c == 'e' || c == 'E') cs
    match r.2 with
    | none => mantissaLike r.1
    | some ex => mantissaLike r.1 && digitsOnly (stripSign ex)

/-- The boolean spellings `read_csv` converts a column of to `bool`. -/
def isBoolLike (v : String) : Bool :=
  (["True", "False", "TRUE", "FALSE"] : List String).contains v

/-- Does any of `read_csv`'s column conversions accept this cell? -/
def pdConvertible (v : String) : Bool := isIntLike v || isFloatLike v || isBoolLike v

/-- A text field that survives `read_csv` verbatim: not an NA sentinel (in
particular not empty) and outside every numeric/boolean conversion. -/
def okTextField (v : String) : Prop :=
  pdNaSentinels.contains v = false ∧ pdConvertible v = false

instance (v : String) : Decidable (okTextField v) := by
  unfold okTextField
  infer_instance

/-- `read_csv`'s per-column conversion: a non-empty column whose every cell
is int-like becomes integers; otherwise cells stay strings except NA
sentinels, which become NaN. -/
def colConvert (vs : List String) : List PdCell :=
  if !vs.isEmpty && vs.all isIntLike then vs.map (fun v => PdCell.i (parsePdInt v))
  else vs.map (fun v => if pdNaSentinels.contains v then PdCell.nan else PdCell.s v)

/-- One reloaded feedback row: the six cells as `read_csv` delivers them. -/
structure LoadedRecord where
  article : PdCell
  title : PdCell
  feedback : PdCell
  time : PdCell
  source : PdCell
  url : PdCell
deriving DecidableEq

/-- Reassembles six column vectors into rows. -/
def zipRecords :
    List PdCell → List PdCell → List PdCell → List PdCell → List PdCell → List PdCell →
      List LoadedRecord
  | a :: as, b :: bs, c :: cs, d :: ds, e :: es, f :: fs =>
    ⟨a, b, c, d, e, f⟩ :: zipRecords as bs cs ds es fs
  | _, _, _, _, _, _ => []

/-- One named column after reload: located by the header and run through
`read_csv`'s conversion; a column missing from the header is synthesized as
empty strings after the read (app.py lines 34-38), so it is not
NA-converted. -/
def loadCol (header : List (List Char)) (rows : List (List (List Char))) (name : String) :
    List PdCell :=
  match header.findIdx? (fun h => h == name.data) with
  | some i => colConvert (rows.map (fun row => String.mk (row.getD i [])))
  | none => rows.map (fun _ => PdCell.s "")

/-- The store reload at process start (app.py lines 28-43): parse the file,
take the first row as header, apply `read_csv`'s NA conversion and integer
inference per column, and normalize to the fixed schema.  An empty or
unreadable file yields the empty store. -/
def loadStoreCsv (file : List Char) : List LoadedRecord :=
  match scanCsv false file [] [] with
  | [] => []
  | header :: rows =>
    zipRecords (loadCol header rows "Article") (loadCol header rows "Title")
      (loadCol header rows "Feedback") (loadCol header rows "Time")
      (loadCol header rows "Source") (loadCol header rows "URL")

/-- The full rewrite of the durable file on each save (app.py lines 321-329):
header row followed by every record of the in-memory store. -/
def saveStoreCsv (store : List FeedbackRecord) : List Char :=
  renderRows ((expected_cols.map String.data) :: store.map rowOfRecord)

/-- What an in-memory record should reload as when its fields survive
verbatim: the Article cell as the integer it denotes (the program appends
it as an int and the all-integer column is inferred back to ints), the five
text cells as the same strings. -/
def asLoaded (r : FeedbackRecord) : LoadedRecord :=
  { article := PdCell.i (parsePdInt r.article), title := PdCell.s r.title,
    feedback := PdCell.s r.feedback, time := PdCell.s r.time,
    source := PdCell.s r.source, url := PdCell.s r.url }

theorem zipRecords_map (l : List FeedbackRecord)
    (f1 f2 f3 f4 f5 f6 : FeedbackRecord → PdCell) :
    zipRecords (l.map f1) (l.map f2) (l.map f3) (l.map f4) (l.map f5) (l.map f6) =
      l.map (fun r => ⟨f1 r, f2 r, f3 r, f4 r, f5 r, f6 r⟩) := by
  induction l with
  | nil => rfl
  | cons r t ih => simp [zipRecords, ih]

theorem colConvert_int (vs : List String) (hne : vs ≠ [])
    (h : ∀ v ∈ vs, isIntLike v = true) :
    colConvert vs = vs.map (fun v => PdCell.i (parsePdInt v)) := by
  have h1 : (!vs.isEmpty && vs.all isIntLike) = true := by
    rw [Bool.and_eq_true]
    constructor
    · cases vs with
      | nil => exact absurd rfl hne
      | cons a t => rfl
    · rw [List.all_eq_true]
      exact h
  simp [colConvert, h1]

theorem colConvert_text (vs : List String) (h : ∀ v ∈ vs, okTextField v) :
    colConvert vs = vs.map PdCell.s := by
  unfold colConvert
  cases vs with
  | nil => simp
  | cons v t =>
    have hIntF : isIntLike v = false := by
      have h2 := (h v (by simp)).2
      rw [pdConvertible, Bool.or_eq_false_iff, Bool.or_eq_false_iff] at h2
      exact h2.1.1
    have hcond : (!((v :: t).isEmpty) && (v :: t).all isIntLike) = false := by
      simp [List.all_cons, hIntF]
    rw [hcond]
    simp only [Bool.false_eq_true, if_false]
    apply List.map_congr_left
    intro x hx
    rw [(h x hx).1]
    simp

theorem rows_col (store : List FeedbackRecord) (i : Nat) (f : FeedbackRecord → String)
    (hf : ∀ r, (rowOfRecord r).getD i [] = (f r).data) :
    (store.map rowOfRecord).map (fun row => String.mk (row.getD i [])) = store.map f := by
  rw [List.map_map]
  apply List.map_congr_left
  intro r _
  simp only [Function.comp_apply]
  rw [hf r]

theorem saveStore_rows_ne_nil (store : List FeedbackRecord) :
    ∀ r ∈ (expected_cols.map String.data) :: store.map rowOfRecord, r ≠ [] := by
  intro r hr
  rcases List.mem_cons.mp hr with h | h
  · subst h; simp [expected_cols]
  · obtain ⟨x, _, rfl⟩ := List.mem_map.mp h
    simp [rowOfRecord]

/-- A record whose URL field is the empty string, as the handler writes when
an article has no url (app.py line 280). -/
def c1emptyUrlRec : FeedbackRecord :=
  { article := "1", title := "t", feedback := "good",
    time := "01-01-2025 01:00 AM", source := "s", url := "" }

/-- A record whose fields all survive `read_csv` verbatim. -/
def c1okRec : FeedbackRecord :=
  { article := "1", title := "Title!", feedback := "nice read",
    time := "01-01-2025 01:00 AM", source := "src", url := "http://x" }

/-- Lexicographic (code-point) order on character lists: exactly Python's and
pandas' comparison of the stored `Time` strings. -/
def lexLtCh : List Char → List Char → Bool
  | [], [] => false
  | [], _ :: _ => true
  | _ :: _, [] => false
  | a :: as, b :: bs => if a < b then true else if b < a then false else lexLtCh as bs

theorem lexLtCh_irrefl (l : List Char) : lexLtCh l l = false := by
  induction l with
  | nil => rfl
  | cons a as ih => simp [lexLtCh, lt_irrefl, ih]

theorem lexLtCh_trans : ∀ {a b c : List Char},
    lexLtCh a b = true → lexLtCh b c = true → lexLtCh a c = true
  | [], [], _, h1, _ => by cases h1
  | [], _ :: _, [], _, h2 => by cases h2
  | [], _ :: _, _ :: _, _, _ => rfl
  | _ :: _, [], _, h1, _ => by cases h1
  | _ :: _, _ :: _, [], _, h2 => by cases h2
  | a :: as, b :: bs, c :: cs, h1, h2 => by
    simp only [lexLtCh] at h1 h2 ⊢
    rcases lt_trichotomy a b with hab | hab | hab
    · rcases lt_trichotomy b c with hbc | hbc | hbc
      · simp [lt_trans hab hbc]
      · subst hbc; simp [hab]
      · rcases lt_trichotomy a c with hac | hac | hac
        · simp [hac]
        · subst hac
          rw [if_neg (lt_asymm hbc), if_pos hbc] at h2
          cases h2
        · rw [if_neg (lt_asymm hbc), if_pos hbc] at h2
          cases h2
    · subst hab
      rw [if_neg (lt_irrefl a), if_neg (lt_irrefl a)] at h1
      rcases lt_trichotomy a c with hac | hac | hac
      · simp [hac]
      · subst hac
        rw [if_neg (lt_irrefl a), if_neg (lt_irrefl a)] at h2
        simp [lt_irrefl, lexLtCh_trans h1 h2]
      · rw [if_neg (lt_asymm hac), if_pos hac] at h2
        cases h2
    · rw [if_neg (lt_asymm hab), if_pos hab] at h1
      cases h1

theorem lexLtCh_conn : ∀ {a b : List Char},
    lexLtCh a b = false → lexLtCh b a = false → a = b
  | [], [], _, _ => rfl
  | [], _ :: _, h1, _ => by cases h1
  | _ :: _, [], _, h2 => by cases h2
  | a :: as, b :: bs, h1, h2 => by
    simp only [lexLtCh] at h1 h2
    rcases lt_trichotomy a b with hab | hab | hab
    · rw [if_pos hab] at h1; cases h1
    · subst hab
      rw [if_neg (lt_irrefl a), if_neg (lt_irrefl a)] at h1 h2
      rw [lexLtCh_conn h1 h2]
    · rw [if_pos hab] at h2; cases h2

/-- The descending comparison used by `sort_values(by="Time",
ascending=False)`: record `a` comes before `b` when `a.time` is not
lexicographically below `b.time` (pandas compares the raw strings). -/
def timeDescRel (a b : FeedbackRecord) : Prop :=
  lexLtCh a.time.data b.time.data = false

instance : DecidableRel timeDescRel :=
  fun a b => inferInstanceAs (Decidable (_ = false))

instance : IsTotal FeedbackRecord timeDescRel :=
  ⟨fun a b => by
    unfold timeDescRel
    by_cases h : lexLtCh a.time.data b.time.data = false
    · exact Or.inl h
    · refine Or.inr ?_
      rw [Bool.not_eq_false] at h
      by_cases h2 : lexLtCh b.time.data a.time.data = false
      · exact h2
      · rw [Bool.not_eq_false] at h2
        have := lexLtCh_trans h h2
        rw [lexLtCh_irrefl] at this
        cases this⟩

instance : IsTrans FeedbackRecord timeDescRel :=
  ⟨fun a b c h1 h2 => by
    unfold timeDescRel at h1 h2 ⊢
    by_cases hac : lexLtCh a.time.data c.time.data = false
    · exact hac
    · rw [Bool.not_eq_false] at hac
      by_cases hba : lexLtCh b.time.data a.time.data = false
      · have hab := lexLtCh_conn h1 hba
        rw [← hab] at h2
        exact absurd hac (by simp [h2])
      · rw [Bool.not_eq_false] at hba
        have := lexLtCh_trans hba hac
        exact absurd this (by simp [h2])⟩

/-- The View All Feedback page (app.py lines 338-350): nothing when the store
is empty, else the store sorted by the `Time` string descending. -/
def viewAllFeedback (store : List FeedbackRecord) : List FeedbackRecord :=
  if store = [] then [] else List.insertionSort timeDescRel store

/-- C4 amended: the page displays a permutation of the store that is sorted
by the `Time` field in descending lexicographic string order (which is what
`sort_values` on the text column gives, not chronological order). -/
theorem claim_C4_amended (store : List FeedbackRecord) :
    List.Sorted timeDescRel (viewAllFeedback store) ∧
    (viewAllFeedback store).Perm store := by
  unfold viewAllFeedback
  split
  · constructor
    · exact List.sorted_nil
    · simp [*]
  · exact ⟨List.sorted_insertionSort timeDescRel store,
      List.perm_insertionSort timeDescRel store⟩

/-! ## The Save Feedback handler (app.py lines 297-334) -/

/-- The observable outcome of one Save Feedback submission: the in-memory
store, the durable file contents, and the message surfaced to the user. -/
structure SaveResult where
  store : List FeedbackRecord
  fileContent : List Char
  message : String
deriving DecidableEq

/-- The Save Feedback handler (app.py lines 303-333): an empty (after strip)
feedback text is rejected with a blocking warning; otherwise the new row is
appended to the in-memory store and the whole file is rewritten from it.
`writeOk` models whether `to_csv` succeeds; on failure the in-memory append
stands and a non-fatal error message is shown instead of raising. -/
def saveFeedbackHandler (store : List FeedbackRecord) (fileContent : List Char)
    (writeOk : Bool) (i : Nat) (title feedback_input time_now src url : String) :
    SaveResult :=
  if pyStrip feedback_input = "" then
    { store := store, fileContent := fileContent,
      message := "Please enter feedback before submitting." }
  else
    let new_row : FeedbackRecord :=
      { article := toString (i + 1), title := title, feedback := feedback_input,
        time := time_now, source := src, url := url }
    let store2 := store ++ [new_row]
    if writeOk then
      { store := store2, fileContent := saveStoreCsv store2,
        message := "✅ Feedback saved and visible in sidebar" }
    else
      { store := store2, fileContent := fileContent,
        message := "Saved to session but failed to write CSV (disk permission)." }

/-- C5: on persistence failure the in-memory append still stands: the store
grows by exactly the submitted record (appended last, fields as submitted)
and the failure is surfaced as the non-fatal error message, not raised. -/
theorem claim_C5_persistence_failure (store : List FeedbackRecord)
    (fileContent : List Char) (i : Nat) (title feedback_input time_now src url : String)
    (hfb : pyStrip feedback_input ≠ "") :
    let r := saveFeedbackHandler store fileContent false i title feedback_input time_now src url
    r.store = store ++
      [{ article := toString (i + 1), title := title, feedback := feedback_input,
         time := time_now, source := src, url := url }] ∧
    r.store.length = store.length + 1 ∧
    r.message = "Saved to session but failed to write CSV (disk permission)." := by
  unfold saveFeedbackHandler
  rw [if_neg hfb]
  simp

theorem claim_C5_witness :
    pyStrip "good summary" ≠ "" ∧
    ((saveFeedbackHandler [] [] false 0 "T" "good summary" "01-01-2025 01:00 AM" "S" "U").store =
        [{ article := toString (0 + 1), title := "T", feedback := "good summary",
           time := "01-01-2025 01:00 AM", source := "S", url := "U" }] ∧
      (saveFeedbackHandler [] [] false 0 "T" "good summary" "01-01-2025 01:00 AM" "S" "U").store.length =
        ([] : List FeedbackRecord).length + 1 ∧
      (saveFeedbackHandler [] [] false 0 "T" "good summary" "01-01-2025 01:00 AM" "S" "U").message =
        "Saved to session but failed to write CSV (disk permission).") := by
  refine ⟨by decide, ?_⟩
  have h := claim_C5_persistence_failure [] [] 0 "T" "good summary"
    "01-01-2025 01:00 AM" "S" "U" (by decide)
  simpa using h

/-- C6: a submission whose feedback text strips to empty (in particular the
empty text) is rejected before reaching the store: the in-memory store and
the durable file are unchanged, and the blocking warning is surfaced. -/
theorem claim_C6_empty_feedback_rejected (store : List FeedbackRecord)
    (fileContent : List Char) (writeOk : Bool) (i : Nat)
    (title feedback_input time_now src url : String)
    (hfb : pyStrip feedback_input = "") :
    let r := saveFeedbackHandler store fileContent writeOk i title feedback_input time_now src url
    r.store = store ∧ r.fileContent = fileContent ∧
    r.message = "Please enter feedback before submitting." := by
  unfold saveFeedbackHandler
  rw [if_pos hfb]
  exact ⟨rfl, rfl, rfl⟩

theorem claim_C6_witness :
    pyStrip "" = "" ∧
    ((saveFeedbackHandler [] ['h'] true 0 "T" "" "t" "S" "U").store = [] ∧
      (saveFeedbackHandler [] ['h'] true 0 "T" "" "t" "S" "U").fileContent = ['h'] ∧
      (saveFeedbackHandler [] ['h'] true 0 "T" "" "t" "S" "U").message =
        "Please enter feedback before submitting.") := by
  refine ⟨by decide, ?_⟩
  have h := claim_C6_empty_feedback_rejected [] ['h'] true 0 "T" "" "t" "S" "U" (by decide)
  simpa using h

/-! ## Publish-time formatter (`parse_publish_time`, app.py lines 169-208)

The external datetime/pytz behaviour is embedded from its documented
contract: `strptime` parses and validates a Gregorian calendar date; the
conversion `pytz.utc.localize(dt).astimezone(india)` adds the Asia/Kolkata
offset of +05:30 with calendar rollover; `strftime` renders the fields. -/

/-- A naive `datetime.datetime` value (year, month, day, hour, minute,
second). -/
structure PyDateTime where
  year : Nat
  month : Nat
  day : Nat
  hour : Nat
  minute : Nat
  second : Nat
deriving DecidableEq

/-- Gregorian leap year rule. -/
def isLeap (y : Nat) : Bool := (y % 4 == 0 && y % 100 != 0) || y % 400 == 0

/-- Days in a month of year `y`. -/
def daysInMonth (y m : Nat) : Nat :=
  if m = 2 then (if isLeap y then 29 else 28)
  else if m = 4 ∨ m = 6 ∨ m = 9 ∨ m = 11 then 30
  else 31

/-- Days of the year strictly before month `m` (for a year with the given
leap flag). -/
def daysBeforeMonth (leap : Bool) (m : Nat) : Nat :=
  let L : Nat := if leap then 1 else 0
  if m ≤ 1 then 0
  else if m = 2 then 31
  else if m = 3 then 59 + L
  else if m = 4 then 90 + L
  else if m = 5 then 120 + L
  else if m = 6 then 151 + L
  else if m = 7 then 181 + L
  else if m = 8 then 212 + L
  else if m = 9 then 243 + L
  else if m = 10 then 273 + L
  else if m = 11 then 304 + L
  else 334 + L

/-- Days before January 1st of year `y`, counted from year 1. -/
def daysBeforeYear (y : Nat) : Nat :=
  365 * (y - 1) + ((y - 1) / 4 - (y - 1) / 100 + (y - 1) / 400)

/-- A datetime as an absolute number of minutes (the mathematical timeline
used to state that a conversion preserves the instant). -/
def toAbsMin (dt : PyDateTime) : Nat :=
  (daysBeforeYear dt.year + daysBeforeMonth (isLeap dt.year) dt.month + (dt.day - 1)) * 1440
    + dt.hour * 60 + dt.minute

/-- Validity of a parsed datetime (what `strptime` accepts, with a 4-digit
year). -/
def validDt (dt : PyDateTime) : Prop :=
  1 ≤ dt.year ∧ dt.year ≤ 9999 ∧ 1 ≤ dt.month ∧ dt.month ≤ 12 ∧
  1 ≤ dt.day ∧ dt.day ≤ daysInMonth dt.year dt.month ∧
  dt.hour ≤ 23 ∧ dt.minute ≤ 59 ∧ dt.second ≤ 59

instance (dt : PyDateTime) : Decidable (validDt dt) := by
  unfold validDt
  infer_instance

/-- The Asia/Kolkata conversion `pytz.utc.localize(dt).astimezone(india)`:
add 5 hours 30 minutes with carry into the calendar fields. -/
def toIST (dt : PyDateTime) : PyDateTime :=
  let m2 := dt.minute + 30
  let h2 := dt.hour + 5 + m2 / 60
  let minute := m2 % 60
  let hour := h2 % 24
  if h2 < 24 then
    { dt with hour := hour, minute := minute }
  else if dt.day < daysInMonth dt.year dt.month then
    { dt with day := dt.day + 1, hour := hour, minute := minute }
  else if dt.month < 12 then
    { dt with month := dt.month + 1, day := 1, hour := hour, minute := minute }
  else
    { year := dt.year + 1, month := 1, day := 1, hour := hour, minute := minute,
      second := dt.second }

theorem isLeap_iff (y : Nat) :
    isLeap y = true ↔ (y % 4 = 0 ∧ y % 100 ≠ 0) ∨ y % 400 = 0 := by
  simp [isLeap, Bool.or_eq_true, Bool.and_eq_true, beq_iff_eq, bne_iff_ne]

theorem daysBeforeYear_step (y : Nat) (hy : 1 ≤ y) :
    daysBeforeYear (y + 1) = daysBeforeYear y + 365 + (if isLeap y then 1 else 0) := by
  unfold daysBeforeYear
  by_cases hb : isLeap y = true
  · rw [if_pos hb, isLeap_iff] at *
    omega
  · rw [if_neg hb, isLeap_iff] at *
    omega

theorem daysBeforeMonth_step (y m : Nat) (h1 : 1 ≤ m) (h2 : m ≤ 11) :
    daysBeforeMonth (isLeap y) (m + 1) = daysBeforeMonth (isLeap y) m + daysInMonth y m := by
  unfold daysBeforeMonth daysInMonth
  cases hb : isLeap y <;> interval_cases m <;> simp [hb]

theorem daysBeforeMonth_twelve (y : Nat) :
    daysBeforeMonth (isLeap y) 12 = 334 + (if isLeap y then 1 else 0) := by
  cases hb : isLeap y <;> simp [daysBeforeMonth, hb]

/-- The IST conversion adds exactly 330 minutes on the absolute timeline. -/
theorem toIST_correct (dt : PyDateTime) (h : validDt dt) :
    toAbsMin (toIST dt) = toAbsMin dt + 330 := by
  obtain ⟨h1, h2, h3, h4, h5, h6, h7, h8, h9⟩ := h
  unfold toIST toAbsMin
  by_cases hc1 : dt.hour + 5 + (dt.minute + 30) / 60 < 24
  · rw [if_pos hc1]
    dsimp only
    omega
  · rw [if_neg hc1]
    by_cases hc2 : dt.day < daysInMonth dt.year dt.month
    · rw [if_pos hc2]
      dsimp only
      omega
    · rw [if_neg hc2]
      by_cases hc3 : dt.month < 12
      · rw [if_pos hc3]
        dsimp only
        have hd : dt.day = daysInMonth dt.year dt.month := le_antisymm h6 (not_lt.mp hc2)
        have hstep := daysBeforeMonth_step dt.year dt.month h3 (by omega)
        omega
      · rw [if_neg hc3]
        dsimp only
        have hm : dt.month = 12 := by omega
        have hd : dt.day = daysInMonth dt.year dt.month := le_antisymm h6 (not_lt.mp hc2)
        have hd31 : dt.day = 31 := by
          rw [hd, hm]; simp [daysInMonth]
        have hystep := daysBeforeYear_step dt.year h1
        have hdm12 := daysBeforeMonth_twelve dt.year
        have hdm1 : daysBeforeMonth (isLeap (dt.year + 1)) 1 = 0 := by
          simp [daysBeforeMonth]
        rw [hm]
        omega

/-- The decimal digit character for `n % 10`. -/
def natToDigit (n : Nat) : Char :=
  ['0', '1', '2', '3', '4', '5', '6', '7', '8', '9'].getD (n % 10) '0'

/-- Numeric value of a digit character. -/
def digitVal (c : Char) : Nat := c.toNat - 48

theorem digitVal_natToDigit (n : Nat) : digitVal (natToDigit n) = n % 10 := by
  unfold natToDigit digitVal
  have h : n % 10 < 10 := Nat.mod_lt n (by omega)
  revert h
  generalize n % 10 = k
  intro h
  interval_cases k <;> decide

theorem isDigit_natToDigit (n : Nat) : (natToDigit n).isDigit = true := by
  unfold natToDigit
  have h : n % 10 < 10 := Nat.mod_lt n (by omega)
  revert h
  generalize n % 10 = k
  intro h
  interval_cases k <;> decide

theorem ws_natToDigit (n : Nat) : isWsChar (natToDigit n) = false := by
  unfold natToDigit
  have h : n % 10 < 10 := Nat.mod_lt n (by omega)
  revert h
  generalize n % 10 = k
  intro h
  interval_cases k <;> decide

theorem natToDigit_ne (n : Nat) (c : Char) (hc : c.isDigit = false) : natToDigit n ≠ c := by
  intro h
  rw [← h] at hc
  rw [isDigit_natToDigit] at hc
  cases hc

/-- `strftime("%d-%m-%Y %I:%M %p")`: the fixed display pattern of app.py. -/
def fmtDisplay (dt : PyDateTime) : String :=
  let h12 := (dt.hour + 11) % 12 + 1
  String.mk
    ([natToDigit (dt.day / 10), natToDigit dt.day, '-',
      natToDigit (dt.month / 10), natToDigit dt.month, '-',
      natToDigit (dt.year / 1000), natToDigit (dt.year / 100),
      natToDigit (dt.year / 10), natToDigit dt.year, ' ',
      natToDigit (h12 / 10), natToDigit h12, ':',
      natToDigit (dt.minute / 10), natToDigit dt.minute, ' '] ++
      (if dt.hour < 12 then ['A', 'M'] else ['P', 'M']))

/-- The canonical `YYYY-MM-DDTHH:MM:SS` rendering of a datetime (the shape of
a valid UTC ISO-8601 timestamp without zone suffix). -/
def renderIso (dt : PyDateTime) : List Char :=
  [natToDigit (dt.year / 1000), natToDigit (dt.year / 100),
   natToDigit (dt.year / 10), natToDigit dt.year, '-',
   natToDigit (dt.month / 10), natToDigit dt.month, '-',
   natToDigit (dt.day / 10), natToDigit dt.day, 'T',
   natToDigit (dt.hour / 10), natToDigit dt.hour, ':',
   natToDigit (dt.minute / 10), natToDigit dt.minute, ':',
   natToDigit (dt.second / 10), natToDigit dt.second]

/-- `datetime.strptime(s, "%Y-%m-%dT%H:%M:%S")` on a 19-character slice:
fixed-width digits, separators checked, fields validated against the
calendar (out-of-range fields raise, embedded as `none`). -/
def strptime19 (cs : List Char) : Option PyDateTime :=
  match cs with
  | [y1, y2, y3, y4, s1, m1, m2, s2, d1, d2, s3, h1, h2, s4, n1, n2, s5, c1, c2] =>
    if y1.isDigit && y2.isDigit && y3.isDigit && y4.isDigit && (s1 == '-') &&
       m1.isDigit && m2.isDigit && (s2 == '-') && d1.isDigit && d2.isDigit &&
       (s3 == 'T') && h1.isDigit && h2.isDigit && (s4 == ':') && n1.isDigit &&
       n2.isDigit && (s5 == ':') && c1.isDigit && c2.isDigit then
      let y := 1000 * digitVal y1 + 100 * digitVal y2 + 10 * digitVal y3 + digitVal y4
      let mo := 10 * digitVal m1 + digitVal m2
      let d := 10 * digitVal d1 + digitVal d2
      let h := 10 * digitVal h1 + digitVal h2
      let mi := 10 * digitVal n1 + digitVal n2
      let s := 10 * digitVal c1 + digitVal c2
      if 1 ≤ y ∧ 1 ≤ mo ∧ mo ≤ 12 ∧ 1 ≤ d ∧ d ≤ daysInMonth y mo ∧
         h ≤ 23 ∧ mi ≤ 59 ∧ s ≤ 59
      then some ⟨y, mo, d, h, mi, s⟩ else none
    else none
  | _ => none

/-- The RFC-822-style weekday abbreviations accepted by `%a`. -/
def dayAbbrs : List (List Char) :=
  (["Mon", "Tue", "Wed", "Thu", "Fri", "Sat", "Sun"] : List String).map String.data

/-- `%b` month abbreviation to month number. -/
def monthAbbr (b : List Char) : Option Nat :=
  ((["Jan", "Feb", "Mar", "Apr", "May", "Jun", "Jul", "Aug", "Sep", "Oct",
     "Nov", "Dec"] : List String).map String.data).findIdx? (fun x => x == b)
    |>.map (· + 1)

/-- `datetime.strptime(s, "%a, %d %b %Y %H:%M:%S")` on a 25-character slice
(the RSS fallback attempt of app.py line 202). -/
def strptimeRfc (cs : List Char) : Option PyDateTime :=
  match cs with
  | [w1, w2, w3, cm, p1, d1, d2, p2, b1, b2, b3, p3, y1, y2, y3, y4, p4,
     h1, h2, q1, n1, n2, q2, c1, c2] =>
    if dayAbbrs.any (fun d => d == [w1, w2, w3]) && (cm == ',') && (p1 == ' ') &&
       d1.isDigit && d2.isDigit && (p2 == ' ') && (p3 == ' ') &&
       y1.isDigit && y2.isDigit && y3.isDigit && y4.isDigit && (p4 == ' ') &&
       h1.isDigit && h2.isDigit && (q1 == ':') && n1.isDigit && n2.isDigit &&
       (q2 == ':') && c1.isDigit && c2.isDigit then
      match monthAbbr [b1, b2, b3] with
      | some mo =>
        let y := 1000 * digitVal y1 + 100 * digitVal y2 + 10 * digitVal y3 + digitVal y4
        let d := 10 * digitVal d1 + digitVal d2
        let h := 10 * digitVal h1 + digitVal h2
        let mi := 10 * digitVal n1 + digitVal n2
        let s := 10 * digitVal c1 + digitVal c2
        if 1 ≤ y ∧ 1 ≤ d ∧ d ≤ daysInMonth y mo ∧ h ≤ 23 ∧ mi ≤ 59 ∧ s ≤ 59
        then some ⟨y, mo, d, h, mi, s⟩ else none
      | none => none
    else none
  | _ => none

/-- `parse_publish_time(raw)` from app.py lines 169-208, with the ambient
current time made an explicit argument `now`.  The try-block is the
`Option`-valued ISO attempt (the Z branch, the offset branch and the plain-T
branch; a parse error or no matching branch both fall through), then the
RFC-822 attempt on the first 25 characters, then the current-time
fallback. -/
def parse_publish_time (now : PyDateTime) (raw : String) : String :=
  if raw = "" then fmtDisplay now
  else
    let s := pyStripL raw.data
    let isoTry : Option PyDateTime :=
      if s.getLast? == some 'Z' then strptime19 (s.dropLast.take 19)
      else if containsSub s ['T'] && (containsSub s ['+'] || containsSub (s.drop 10) ['-']) then
        strptime19 (s.take 19)
      else if containsSub s ['T'] then strptime19 (s.take 19)
      else none
    match isoTry with
    | some dt => fmtDisplay (toIST dt)
    | none =>
      match strptimeRfc (s.take 25) with
      | some dt => fmtDisplay (toIST dt)
      | none => fmtDisplay now

theorem dropWhile_ws_eq_self (cs : List Char) (h : ∀ c ∈ cs, isWsChar c = false) :
    cs.dropWhile isWsChar = cs := by
  cases cs with
  | nil => rfl
  | cons c t =>
    rw [List.dropWhile_cons, h c (by simp)]
    simp

theorem pyStripL_no_ws (cs : List Char) (h : ∀ c ∈ cs, isWsChar c = false) :
    pyStripL cs = cs := by
  unfold pyStripL
  rw [dropWhile_ws_eq_self cs h,
    dropWhile_ws_eq_self _ (fun c hc => h c (List.mem_reverse.mp hc)),
    List.reverse_reverse]

/-- Every character of a rendered ISO timestamp is a digit or one of the
three separators. -/
theorem renderIso_chars (dt : PyDateTime) :
    ∀ c ∈ renderIso dt, c.isDigit = true ∨ c = '-' ∨ c = 'T' ∨ c = ':' := by
  intro c hc
  simp only [renderIso, List.mem_cons, List.not_mem_nil, or_false] at hc
  rcases hc with rfl | rfl | rfl | rfl | rfl | rfl | rfl | rfl | rfl | rfl |
    rfl | rfl | rfl | rfl | rfl | rfl | rfl | rfl | rfl <;>
    first
      | exact Or.inl (isDigit_natToDigit _)
      | simp

theorem beq_false_of_digit (c x : Char) (hd : c.isDigit = true) (hx : x.isDigit = false) :
    (c == x) = false := by
  rcases eq_or_ne c x with rfl | h
  · rw [hd] at hx; cases hx
  · exact beq_eq_false_iff_ne.mpr h

theorem ws_of_digit (c : Char) (hd : c.isDigit = true) : isWsChar c = false := by
  unfold isWsChar
  rw [beq_false_of_digit c ' ' hd (by decide), beq_false_of_digit c '\t' hd (by decide),
    beq_false_of_digit c '\n' hd (by decide), beq_false_of_digit c '\r' hd (by decide),
    beq_false_of_digit c '\x0b' hd (by decide), beq_false_of_digit c '\x0c' hd (by decide)]
  rfl

theorem renderIso_no_ws (dt : PyDateTime) : ∀ c ∈ renderIso dt, isWsChar c = false := by
  intro c hc
  rcases renderIso_chars dt c hc with hd | rfl | rfl | rfl
  · exact ws_of_digit c hd
  · rfl
  · rfl
  · rfl

theorem containsSub_singleton_of_mem {c : Char} {hay : List Char} (h : c ∈ hay) :
    containsSub hay [c] = true := by
  induction hay with
  | nil => cases h
  | cons a t ih =>
    rcases List.mem_cons.mp h with rfl | h2
    · simp [containsSub, List.isPrefixOf]
    · simp [containsSub, ih h2]

theorem containsSub_singleton_eq_false {c : Char} {hay : List Char}
    (h : ∀ a ∈ hay, a ≠ c) : containsSub hay [c] = false := by
  induction hay with
  | nil => rfl
  | cons a t ih =>
    have ha : (c == a) = false := beq_eq_false_iff_ne.mpr (fun hx => h a (by simp) hx.symm)
    simp [containsSub, List.isPrefixOf, ha, ih (fun b hb => h b (by simp [hb]))]

theorem renderIso_length (dt : PyDateTime) : (renderIso dt).length = 19 := by
  simp [renderIso]

theorem renderIso_take19 (dt : PyDateTime) : (renderIso dt).take 19 = renderIso dt := by
  rw [← renderIso_length dt, List.take_length]

/-- The inverse law: parsing the rendered ISO timestamp of a valid datetime
gives it back. -/
theorem strptime19_renderIso (dt : PyDateTime) (h : validDt dt) :
    strptime19 (renderIso dt) = some dt := by
  obtain ⟨y, mo, d, hh, mi, ss⟩ := dt
  obtain ⟨h1, h2, h3, h4, h5, h6, h7, h8, h9⟩ := h
  simp only at h1 h2 h3 h4 h5 h6 h7 h8 h9
  have hdim : daysInMonth y mo ≤ 31 := by
    unfold daysInMonth
    split_ifs <;> omega
  unfold renderIso strptime19
  simp only [isDigit_natToDigit, digitVal_natToDigit, Bool.and_self, Bool.true_and,
    Bool.and_true, beq_self_eq_true, if_true]
  have hy : 1000 * (y / 1000 % 10) + 100 * (y / 100 % 10) + 10 * (y / 10 % 10) + y % 10 = y := by
    omega
  have hmo : 10 * (mo / 10 % 10) + mo % 10 = mo := by omega
  have hd : 10 * (d / 10 % 10) + d % 10 = d := by omega
  have hhh : 10 * (hh / 10 % 10) + hh % 10 = hh := by omega
  have hmi : 10 * (mi / 10 % 10) + mi % 10 = mi := by omega
  have hss : 10 * (ss / 10 % 10) + ss % 10 = ss := by omega
  rw [hy, hmo, hd, hhh, hmi, hss]
  rw [if_pos ⟨h1, h3, h4, h5, h6, h7, h8, h9⟩]

theorem parse_publish_time_isoZ (now dt : PyDateTime) (h : validDt dt) :
    parse_publish_time now (String.mk (renderIso dt ++ ['Z'])) = fmtDisplay (toIST dt) := by
  have hne : String.mk (renderIso dt ++ ['Z']) ≠ "" := by
    intro hcon
    have hdata : renderIso dt ++ ['Z'] = [] := congrArg String.data hcon
    simp [renderIso] at hdata
  unfold parse_publish_time
  rw [if_neg hne]
  have hstrip : pyStripL (String.mk (renderIso dt ++ ['Z'])).data = renderIso dt ++ ['Z'] := by
    apply pyStripL_no_ws
    intro c hc
    rcases List.mem_append.mp hc with h2 | h2
    · exact renderIso_no_ws dt c h2
    · simp at h2; subst h2; rfl
  dsimp only
  rw [hstrip]
  have hlast : (((renderIso dt ++ ['Z']).getLast? == some 'Z') = true) := by
    rw [List.getLast?_concat]
    rfl
  rw [hlast, if_pos rfl, List.dropLast_concat, renderIso_take19,
    strptime19_renderIso dt h]

theorem renderIso_split_last (dt : PyDateTime) :
    renderIso dt =
      [natToDigit (dt.year / 1000), natToDigit (dt.year / 100),
       natToDigit (dt.year / 10), natToDigit dt.year, '-',
       natToDigit (dt.month / 10), natToDigit dt.month, '-',
       natToDigit (dt.day / 10), natToDigit dt.day, 'T',
       natToDigit (dt.hour / 10), natToDigit dt.hour, ':',
       natToDigit (dt.minute / 10), natToDigit dt.minute, ':',
       natToDigit (dt.second / 10)] ++ [natToDigit dt.second] := rfl

theorem parse_publish_time_isoNoZ (now dt : PyDateTime) (h : validDt dt) :
    parse_publish_time now (String.mk (renderIso dt)) = fmtDisplay (toIST dt) := by
  have hne : String.mk (renderIso dt) ≠ "" := by
    intro hcon
    have hdata : renderIso dt = [] := congrArg String.data hcon
    simp [renderIso] at hdata
  unfold parse_publish_time
  rw [if_neg hne]
  have hstrip : pyStripL (String.mk (renderIso dt)).data = renderIso dt :=
    pyStripL_no_ws _ (renderIso_no_ws dt)
  dsimp only
  rw [hstrip]
  have hlast : (((renderIso dt).getLast? == some 'Z') = false) := by
    rw [renderIso_split_last dt, List.getLast?_concat]
    have : natToDigit dt.second ≠ 'Z' := natToDigit_ne _ 'Z' (by decide)
    simp [this]
  rw [hlast]
  have hplus : containsSub (renderIso dt) ['+'] = false := by
    apply containsSub_singleton_eq_false
    intro a ha
    rcases renderIso_chars dt a ha with hd | rfl | rfl | rfl
    · intro hx; subst hx; cases hd
    · decide
    · decide
    · decide
  have hdrop : (renderIso dt).drop 10 =
      ['T', natToDigit (dt.hour / 10), natToDigit dt.hour, ':',
       natToDigit (dt.minute / 10), natToDigit dt.minute, ':',
       natToDigit (dt.second / 10), natToDigit dt.second] := rfl
  have hminus : containsSub ((renderIso dt).drop 10) ['-'] = false := by
    rw [hdrop]
    apply containsSub_singleton_eq_false
    intro a ha
    simp only [List.mem_cons, List.not_mem_nil, or_false] at ha
    rcases ha with rfl | rfl | rfl | rfl | rfl | rfl | rfl | rfl | rfl <;>
      first
        | exact natToDigit_ne _ '-' (by decide)
        | decide
  have hT : containsSub (renderIso dt) ['T'] = true := by
    apply containsSub_singleton_of_mem
    simp [renderIso]
  rw [hplus, hminus, hT]
  simp only [Bool.or_self, Bool.and_false, Bool.false_eq_true, if_false, if_true,
    Bool.true_eq_false]
  rw [renderIso_take19, strptime19_renderIso dt h]

theorem parse_publish_time_cases (now : PyDateTime) (raw : String) :
    (∃ dt2, parse_publish_time now raw = fmtDisplay (toIST dt2)) ∨
      parse_publish_time now raw = fmtDisplay now := by
  unfold parse_publish_time
  by_cases hr : raw = ""
  · rw [if_pos hr]
    exact Or.inr rfl
  · rw [if_neg hr]
    dsimp only
    cases hE : (if (pyStripL raw.data).getLast? == some 'Z' then
        strptime19 ((pyStripL raw.data).dropLast.take 19)
      else if containsSub (pyStripL raw.data) ['T'] &&
          (containsSub (pyStripL raw.data) ['+'] ||
            containsSub ((pyStripL raw.data).drop 10) ['-']) then
        strptime19 ((pyStripL raw.data).take 19)
      else if containsSub (pyStripL raw.data) ['T'] then
        strptime19 ((pyStripL raw.data).take 19)
      else none) with
    | some dt => exact Or.inl ⟨dt, rfl⟩
    | none =>
      cases hR : strptimeRfc ((pyStripL raw.data).take 25) with
      | some dt => exact Or.inl ⟨dt, rfl⟩
      | none => exact Or.inr rfl

/-- C7: for every valid datetime, the formatter parses its canonical UTC
ISO-8601 rendering (with or without the trailing Z), converts it to
Asia/Kolkata and renders it in the fixed "DD-MM-YYYY hh:mm AM/PM" pattern;
the rendered instant is the true conversion at minute precision (the
converted datetime sits exactly 330 minutes later on the absolute
timeline); and on any input at all the result is either such a converted
parse or the current local time in the same pattern — never an error. -/
theorem claim_C7_time_formatter (now dt : PyDateTime) (h : validDt dt) :
    parse_publish_time now (String.mk (renderIso dt ++ ['Z'])) = fmtDisplay (toIST dt) ∧
    parse_publish_time now (String.mk (renderIso dt)) = fmtDisplay (toIST dt) ∧
    toAbsMin (toIST dt) = toAbsMin dt + 330 ∧
    ∀ raw : String,
      (∃ dt2, parse_publish_time now raw = fmtDisplay (toIST dt2)) ∨
        parse_publish_time now raw = fmtDisplay now :=
  ⟨parse_publish_time_isoZ now dt h, parse_publish_time_isoNoZ now dt h,
    toIST_correct dt h, parse_publish_time_cases now⟩

theorem claim_C7_witness :
    validDt ⟨2025, 12, 1, 12, 34, 56⟩ ∧
    (parse_publish_time ⟨2025, 1, 1, 0, 0, 0⟩
        (String.mk (renderIso ⟨2025, 12, 1, 12, 34, 56⟩ ++ ['Z'])) =
      fmtDisplay (toIST ⟨2025, 12, 1, 12, 34, 56⟩)) ∧
    String.mk (renderIso ⟨2025, 12, 1, 12, 34, 56⟩ ++ ['Z']) = "2025-12-01T12:34:56Z" ∧
    fmtDisplay (toIST ⟨2025, 12, 1, 12, 34, 56⟩) = "01-12-2025 06:04 PM" :=
  ⟨by decide,
    (claim_C7_time_formatter ⟨2025, 1, 1, 0, 0, 0⟩ ⟨2025, 12, 1, 12, 34, 56⟩ (by decide)).1,
    by decide, by decide⟩

/-- Two concrete feedback records: `c4recNew` is chronologically the more
recent (1 January 2025), `c4recOld` the older (31 December 2024). -/
def c4recNew : FeedbackRecord :=
  { article := "1", title := "", feedback := "newer", time := "01-01-2025 01:00 AM",
    source := "", url := "" }

def c4recOld : FeedbackRecord :=
  { article := "2", title := "", feedback := "older", time := "31-12-2024 01:00 AM",
    source := "", url := "" }

/-- C4 counterexample: sorting the Time strings descending puts the
chronologically older 31-12-2024 record first, because the stored
"DD-MM-YYYY" format makes lexicographic and chronological order disagree
across the year boundary. -/
theorem claim_C4_counterexample :
    viewAllFeedback [c4recNew, c4recOld] = [c4recOld, c4recNew] ∧
    c4recNew.time = fmtDisplay ⟨2025, 1, 1, 1, 0, 0⟩ ∧
    c4recOld.time = fmtDisplay ⟨2024, 12, 31, 1, 0, 0⟩ ∧
    toAbsMin ⟨2024, 12, 31, 1, 0, 0⟩ < toAbsMin ⟨2025, 1, 1, 1, 0, 0⟩ :=
  ⟨by decide, by decide, by decide, by decide⟩
